import Mathlib

/-!
Verification of the cutting-board designer's layout model and session-state
operations (src/cutting_board_designer.py), shallowly embedded over ℚ.
-/

/-- A wood strip: `{'wood_type': ..., 'width': ..., 'color': ...}` dictionaries
stored in `st.session_state.strips`. Widths are modelled as exact rationals. -/
structure Strip where
  wood_type : String
  width : ℚ
  color : String
deriving Repr, DecidableEq

instance : Inhabited Strip := ⟨⟨"Maple", 2, "#F5DEB3"⟩⟩

/-- The `WOOD_TYPES` catalog (lines 12-25): wood name → display color. -/
def WOOD_TYPES : List (String × String) :=
  [("Maple", "#F5DEB3"), ("Walnut", "#5C4033"), ("Purpleheart", "#7D1B7E"),
   ("Cherry", "#C95A49"), ("Padauk", "#D2691E"), ("Wenge", "#3E2723"),
   ("Yellowheart", "#FFD700"), ("Mahogany", "#C04000"), ("Zebrawood", "#E8D4A0"),
   ("Bloodwood", "#8B0000"), ("White Oak", "#D2B48C"), ("Red Oak", "#C19A6B")]

/-- Dictionary lookup `WOOD_TYPES[w]` (total: the UI only offers catalog keys). -/
def woodColor (w : String) : String :=
  ((WOOD_TYPES.find? (fun p => p.1 == w)).map Prod.snd).getD ""

/-- Source `inches_to_cm` (line 38): `inches * 2.54`. -/
def inches_to_cm (inches : ℚ) : ℚ := inches * 2.54

/-- Source `cm_to_inches` (line 41): `cm / 2.54`. -/
def cm_to_inches (cm : ℚ) : ℚ := cm / 2.54

/-- Source `inches_to_mm` (line 44): `inches * 25.4`. -/
def inches_to_mm (inches : ℚ) : ℚ := inches * 25.4

/-- Source `mm_to_inches` (line 47): `mm / 25.4`. -/
def mm_to_inches (mm : ℚ) : ℚ := mm / 25.4

/-- Source `calculate_total_width` (lines 50-53): `sum(strip['width'] for strip in strips)`. -/
def calculate_total_width (strips : List Strip) : ℚ :=
  (strips.map Strip.width).sum

/-- The offset-accumulation walk shared by every rendering routine
(`draw_board_preview` lines 77-134, `draw_schematic` lines 252-289):
`current_x = 0; for strip in strips: emit (strip, current_x, strip['width']);
current_x += strip['width']`. -/
def placeFrom (x : ℚ) : List Strip → List (Strip × ℚ × ℚ)
  | [] => []
  | s :: rest => (s, x, s.width) :: placeFrom (x + s.width) rest

/-- Full placement `place_strips`: the placement walk starting at `current_x = 0`. -/
def place_strips (strips : List Strip) : List (Strip × ℚ × ℚ) :=
  placeFrom 0 strips

/-- Left-edge offset assigned to strip `i` by the placement walk. -/
def offsetAt (strips : List Strip) (i : ℕ) : ℚ :=
  (((place_strips strips).getD i (default, 0, 0)).2).1

/-- Horizontal extent assigned to strip `i` by the placement walk. -/
def extentAt (strips : List Strip) (i : ℕ) : ℚ :=
  (((place_strips strips).getD i (default, 0, 0)).2).2

/-- Source `width_remaining` (line 520): `board_width - total_width`. -/
def width_remaining (board_width : ℚ) (strips : List Strip) : ℚ :=
  board_width - calculate_total_width strips

/-- The view gate in each tab (lines 600, 621, 641, 672):
`if total_width <= board_width:` render, `else:` error. -/
def tab_view_rendered (board_width : ℚ) (strips : List Strip) : Bool :=
  calculate_total_width strips ≤ board_width

/-- The sidebar overflow report (lines 528-529): when `width_remaining < 0`
an error shows `abs(width_remaining)`; otherwise no overflow is reported. -/
def sidebar_overflow_reported (board_width : ℚ) (strips : List Strip) : Option ℚ :=
  if width_remaining board_width strips < 0 then
    some |width_remaining board_width strips|
  else none

-- Basic lemmas about the total width and the placement walk.

theorem calculate_total_width_nil : calculate_total_width [] = 0 := rfl

theorem calculate_total_width_cons (s : Strip) (l : List Strip) :
    calculate_total_width (s :: l) = s.width + calculate_total_width l := by
  simp [calculate_total_width]

theorem calculate_total_width_append (l₁ l₂ : List Strip) :
    calculate_total_width (l₁ ++ l₂) =
      calculate_total_width l₁ + calculate_total_width l₂ := by
  simp [calculate_total_width]

theorem calculate_total_width_nonneg {l : List Strip}
    (h : ∀ s ∈ l, 0 ≤ s.width) : 0 ≤ calculate_total_width l := by
  induction l with
  | nil => simp [calculate_total_width]
  | cons s t ih =>
      rw [calculate_total_width_cons]
      have hs := h s (List.mem_cons_self s t)
      have ht := ih (fun u hu => h u (List.mem_cons_of_mem s hu))
      linarith

theorem calculate_total_width_take_le {l : List Strip} (k : ℕ)
    (h : ∀ s ∈ l, 0 ≤ s.width) :
    calculate_total_width (l.take k) ≤ calculate_total_width l := by
  have hsplit : calculate_total_width (l.take k) + calculate_total_width (l.drop k)
      = calculate_total_width l := by
    rw [← calculate_total_width_append, List.take_append_drop]
  have hdrop : 0 ≤ calculate_total_width (l.drop k) :=
    calculate_total_width_nonneg (fun s hs => h s (List.mem_of_mem_drop hs))
  linarith

theorem placeFrom_length (x : ℚ) (l : List Strip) :
    (placeFrom x l).length = l.length := by
  induction l generalizing x with
  | nil => rfl
  | cons s t ih => simp [placeFrom, ih]

theorem placeFrom_getD (l : List Strip) (x : ℚ) (i : ℕ) (hi : i < l.length) :
    (placeFrom x l).getD i (default, 0, 0) =
      (l.getD i default, x + calculate_total_width (l.take i),
        (l.getD i default).width) := by
  induction l generalizing x i with
  | nil => simp at hi
  | cons s t ih =>
      cases i with
      | zero => simp [placeFrom, calculate_total_width]
      | succ j =>
          have hj : j < t.length := by simpa using hi
          simp only [placeFrom, List.getD_cons_succ, List.take_succ_cons,
            calculate_total_width_cons]
          rw [ih (x + s.width) j hj]
          ring_nf

theorem offsetAt_eq (strips : List Strip) (i : ℕ) (hi : i < strips.length) :
    offsetAt strips i = calculate_total_width (strips.take i) := by
  unfold offsetAt place_strips
  rw [placeFrom_getD strips 0 i hi]
  simp

theorem extentAt_eq (strips : List Strip) (i : ℕ) (hi : i < strips.length) :
    extentAt strips i = (strips.getD i default).width := by
  unfold extentAt place_strips
  rw [placeFrom_getD strips 0 i hi]

theorem calculate_total_width_take_succ (strips : List Strip) (i : ℕ)
    (hi : i < strips.length) :
    calculate_total_width (strips.take (i + 1)) =
      calculate_total_width (strips.take i) + (strips.getD i default).width := by
  rw [List.take_succ]
  rw [calculate_total_width_append]
  congr 1
  have : strips.get? i = some (strips.get ⟨i, hi⟩) := List.get?_eq_get hi
  simp [this, calculate_total_width, List.getD, List.getElem?_eq_getElem hi,
    List.get_eq_getElem]

theorem offsetAt_succ (strips : List Strip) (i : ℕ) (hi : i + 1 < strips.length) :
    offsetAt strips (i + 1) = offsetAt strips i + extentAt strips i := by
  have hi' : i < strips.length := Nat.lt_of_succ_lt hi
  rw [offsetAt_eq strips (i + 1) hi, offsetAt_eq strips i hi',
    extentAt_eq strips i hi', calculate_total_width_take_succ strips i hi']

theorem getD_mem_of_lt {l : List Strip} {i : ℕ} (hi : i < l.length) :
    l.getD i default ∈ l := by
  rw [List.getD_eq_getElem?_getD, List.getElem?_eq_getElem hi]
  exact List.getElem_mem hi

theorem offsetAt_lt_of_lt (strips : List Strip)
    (hpos : ∀ s ∈ strips, 0 < s.width) :
    ∀ i j, i < j → j < strips.length → offsetAt strips i < offsetAt strips j := by
  intro i j
  induction j with
  | zero => intro h _; exact absurd h (Nat.not_lt_zero i)
  | succ k ih =>
      intro hij hk1
      have hk : k < strips.length := Nat.lt_of_succ_lt hk1
      have hstep : offsetAt strips k < offsetAt strips (k + 1) := by
        rw [offsetAt_succ strips k hk1]
        have hw : 0 < extentAt strips k := by
          rw [extentAt_eq strips k hk]
          exact hpos _ (getD_mem_of_lt hk)
        linarith
      rcases Nat.lt_succ_iff_lt_or_eq.mp hij with h | h
      · exact lt_trans (ih h hk) hstep
      · rw [h]; exact hstep

/-- C1: the placement walk (`draw_board_preview`, `draw_schematic`) assigns
strip `i` a left-edge offset equal to the sum of the widths of strips
`0..i-1` and an extent equal to its own width; for positive widths the
offsets are strictly increasing, adjacent placements are contiguous
(`offset[i] + extent[i] = offset[i+1]`), and the whole placement lies inside
`[0, total_occupied_width]`. -/
theorem C1_place_strips (strips : List Strip)
    (hpos : ∀ s ∈ strips, 0 < s.width) :
    (∀ i, i < strips.length →
        offsetAt strips i = calculate_total_width (strips.take i) ∧
        extentAt strips i = (strips.getD i default).width) ∧
    (∀ i, i + 1 < strips.length →
        offsetAt strips i + extentAt strips i = offsetAt strips (i + 1)) ∧
    (∀ i j, i < j → j < strips.length →
        offsetAt strips i < offsetAt strips j) ∧
    (∀ i, i < strips.length →
        0 ≤ offsetAt strips i ∧
        offsetAt strips i + extentAt strips i ≤ calculate_total_width strips) := by
  have hnn : ∀ s ∈ strips, 0 ≤ s.width := fun s hs => le_of_lt (hpos s hs)
  refine ⟨fun i hi => ⟨offsetAt_eq strips i hi, extentAt_eq strips i hi⟩,
    fun i hi => (offsetAt_succ strips i hi).symm,
    offsetAt_lt_of_lt strips hpos, fun i hi => ⟨?_, ?_⟩⟩
  · rw [offsetAt_eq strips i hi]
    exact calculate_total_width_nonneg
      (fun s hs => hnn s (List.take_subset i strips hs))
  · rw [offsetAt_eq strips i hi, extentAt_eq strips i hi,
      ← calculate_total_width_take_succ strips i hi]
    exact calculate_total_width_take_le (i + 1) hnn

/-- The default three-strip session state (lines 334-338). -/
def strips3 : List Strip :=
  [⟨"Maple", 2, "#F5DEB3"⟩, ⟨"Walnut", 1.5, "#5C4033"⟩, ⟨"Maple", 2, "#F5DEB3"⟩]

/-- Witness for C1 at the default three-strip design. -/
theorem C1_place_strips_witness :
    offsetAt strips3 2 = calculate_total_width (strips3.take 2) ∧
    offsetAt strips3 1 + extentAt strips3 1 = offsetAt strips3 2 ∧
    offsetAt strips3 0 < offsetAt strips3 2 := by
  have h := C1_place_strips strips3 (by norm_num [strips3])
  exact ⟨(h.1 2 (by norm_num [strips3])).1, h.2.1 1 (by norm_num [strips3]),
    h.2.2.1 0 2 (by norm_num) (by norm_num [strips3])⟩

/-- C2: `calculate_total_width` is the arithmetic sum of the per-strip widths
(a left fold of `+` over the widths starting at `0`, as Python's `sum` is);
it is zero on the empty sequence, invariant under permutation, and
non-decreasing when a strip of non-negative width is appended. -/
theorem C2_total_width :
    calculate_total_width [] = 0 ∧
    (∀ l : List Strip,
        calculate_total_width l = l.foldl (fun acc s => acc + s.width) 0) ∧
    (∀ l₁ l₂ : List Strip, l₁.Perm l₂ →
        calculate_total_width l₁ = calculate_total_width l₂) ∧
    (∀ (l : List Strip) (s : Strip), 0 ≤ s.width →
        calculate_total_width l ≤ calculate_total_width (l ++ [s])) := by
  refine ⟨rfl, ?_, ?_, ?_⟩
  · intro l
    have : ∀ (a : ℚ), a + calculate_total_width l
        = l.foldl (fun acc s => acc + s.width) a := by
      induction l with
      | nil => intro a; simp [calculate_total_width]
      | cons s t ih =>
          intro a
          rw [calculate_total_width_cons, List.foldl_cons, ← ih (a + s.width)]
          ring
    have h0 := this 0
    linarith [h0]
  · intro l₁ l₂ hperm
    exact List.Perm.sum_eq (List.Perm.map Strip.width hperm)
  · intro l s hs
    rw [calculate_total_width_append, calculate_total_width_cons,
      calculate_total_width_nil]
    linarith

/-- Witness for C2: permutation invariance and append monotonicity at the
default three-strip design. -/
theorem C2_total_width_witness :
    calculate_total_width strips3 = calculate_total_width strips3.reverse ∧
    calculate_total_width strips3 ≤
      calculate_total_width (strips3 ++ [⟨"Cherry", 1, "#C95A49"⟩]) := by
  refine ⟨C2_total_width.2.2.1 strips3 strips3.reverse ?_,
    C2_total_width.2.2.2 strips3 ⟨"Cherry", 1, "#C95A49"⟩ (by norm_num)⟩
  exact (List.reverse_perm strips3).symm

/-- C3: `width_remaining` is exactly `board_width - total_width` (never
clamped, possibly negative); each view tab renders iff the remaining width is
non-negative; and when it is negative the view is not rendered and the
sidebar reports the overflow amount `abs(width_remaining)`. -/
theorem C3_fit (board_width : ℚ) (strips : List Strip) :
    width_remaining board_width strips =
      board_width - calculate_total_width strips ∧
    (tab_view_rendered board_width strips = true ↔
      0 ≤ width_remaining board_width strips) ∧
    (width_remaining board_width strips < 0 →
      tab_view_rendered board_width strips = false ∧
      sidebar_overflow_reported board_width strips =
        some (-(width_remaining board_width strips))) := by
  refine ⟨rfl, ?_, ?_⟩
  · unfold tab_view_rendered width_remaining
    rw [decide_eq_true_eq]
    constructor <;> intro h <;> linarith
  · intro h
    constructor
    · unfold tab_view_rendered
      rw [decide_eq_false_iff_not]
      unfold width_remaining at h
      intro hle
      linarith
    · unfold sidebar_overflow_reported
      rw [if_pos h, abs_of_neg h]

/-- Witness for C3: the spec scenario of the default strips (total `5.5`) on a
board of width `5` — remaining `-0.5`, no view rendered, overflow `0.5`. -/
theorem C3_fit_witness :
    width_remaining 5 strips3 < 0 ∧
    tab_view_rendered 5 strips3 = false ∧
    sidebar_overflow_reported 5 strips3 = some (1 / 2) := by
  have hneg : width_remaining 5 strips3 < 0 := by
    norm_num [width_remaining, calculate_total_width, strips3]
  obtain ⟨h1, h2⟩ := (C3_fit 5 strips3).2.2 hneg
  refine ⟨hneg, h1, ?_⟩
  rw [h2]
  norm_num [width_remaining, calculate_total_width, strips3]

/-- The keys of the persisted JSON document that the load handler reads;
`none` models an absent key. -/
structure DesignDoc where
  design_name : Option String
  board_width : Option ℚ
  board_length : Option ℚ
  strips : Option (List Strip)
deriving Repr, DecidableEq

/-- The session state touched by the save/load boundary: `strips` and
`design_name` live in `st.session_state`; `board_width`/`board_length` are
the module-level values already computed from the sidebar. -/
structure AppState where
  strips : List Strip
  design_name : String
  board_width : ℚ
  board_length : ℚ
deriving Repr, DecidableEq

/-- The message the load handler surfaces: `st.success(...)` or
`st.error(...)`. -/
inductive LoadMsg where
  | success
  | error
deriving Repr, DecidableEq

/-- The load handler (lines 569-577). `none` models a parse failure:
`json.load` raised, or the value had no dict shape so `.get` raised — either
way the `except` branch shows an error and no session key was assigned.
On success exactly two keys are assigned:
`st.session_state.strips = loaded_data.get('strips', st.session_state.strips)`
and `st.session_state.design_name = loaded_data.get('design_name',
'cutting_board_design')`; the board dimensions are never read. -/
def load_design (st : AppState) (uploaded : Option DesignDoc) :
    AppState × LoadMsg :=
  match uploaded with
  | none => (st, LoadMsg.error)
  | some doc =>
      ({ st with
          strips := doc.strips.getD st.strips,
          design_name := doc.design_name.getD "cutting_board_design" },
        LoadMsg.success)

/-- A concrete pre-load session state on a 12 × 18 board. -/
def stDemo : AppState := ⟨strips3, "cutting_board_design", 12, 18⟩

/-- A concrete well-formed document recording an 8 × 10 board with one
Cherry strip. -/
def docDemo : DesignDoc :=
  ⟨some "loaded", some 8, some 10, some [⟨"Cherry", 1, "#C95A49"⟩]⟩

/-- C4 counterexample: loading `docDemo` (board width `8`) into `stDemo`
(board width `12`) succeeds, yet the in-memory board width stays `12` — the
load does not restore the board recorded in the document, so the in-memory
Design does not equal the persisted one. -/
theorem C4_counterexample :
    (load_design stDemo (some docDemo)).2 = LoadMsg.success ∧
    docDemo.board_width = some 8 ∧
    (load_design stDemo (some docDemo)).1.board_width ≠ 8 := by
  refine ⟨rfl, rfl, ?_⟩
  show stDemo.board_width ≠ 8
  norm_num [stDemo]

/-- C4 (amended): a successful load replaces the strip sequence with the
document's `strips` and the design name with the document's `design_name`,
but leaves the board width and length at their pre-load values — the load is
not a wholesale replacement of the Design. -/
theorem C4_load_partial_replace (st : AppState) (doc : DesignDoc)
    (l : List Strip) (n : String)
    (hs : doc.strips = some l) (hn : doc.design_name = some n) :
    (load_design st (some doc)).2 = LoadMsg.success ∧
    (load_design st (some doc)).1.strips = l ∧
    (load_design st (some doc)).1.design_name = n ∧
    (load_design st (some doc)).1.board_width = st.board_width ∧
    (load_design st (some doc)).1.board_length = st.board_length := by
  simp [load_design, hs, hn]

/-- Witness for the amended C4 at `stDemo` and `docDemo`. -/
theorem C4_load_partial_replace_witness :
    (load_design stDemo (some docDemo)).1.strips =
      [⟨"Cherry", 1, "#C95A49"⟩] ∧
    (load_design stDemo (some docDemo)).1.design_name = "loaded" ∧
    (load_design stDemo (some docDemo)).1.board_width = stDemo.board_width := by
  have h := C4_load_partial_replace stDemo docDemo
    [⟨"Cherry", 1, "#C95A49"⟩] "loaded" rfl rfl
  exact ⟨h.2.1, h.2.2.1, h.2.2.2.1⟩

/-- C5: a parse failure is surfaced as an error message and the session
state is returned exactly as it was — no key is assigned, so no partial
load occurs. -/
theorem C5_parse_failure_preserves_state (st : AppState) :
    load_design st none = (st, LoadMsg.error) := rfl

/-- C6: loading a well-formed document that omits `strips` leaves the strip
sequence unchanged, and loading one that omits `design_name` sets the name
to the fixed default `"cutting_board_design"`. -/
theorem C6_missing_key_fallbacks (st : AppState) (doc : DesignDoc) :
    (doc.strips = none →
      (load_design st (some doc)).1.strips = st.strips) ∧
    (doc.design_name = none →
      (load_design st (some doc)).1.design_name = "cutting_board_design") := by
  constructor <;> intro h <;> simp [load_design, h]

/-- Witness for C6: loading a document with both keys absent. -/
theorem C6_missing_key_fallbacks_witness :
    (load_design stDemo (some ⟨none, none, none, none⟩)).1.strips =
      stDemo.strips ∧
    (load_design stDemo (some ⟨none, none, none, none⟩)).1.design_name =
      "cutting_board_design" := by
  have h := C6_missing_key_fallbacks stDemo ⟨none, none, none, none⟩
  exact ⟨h.1 rfl, h.2 rfl⟩

/-- The delete button (lines 510-514): disabled when `num_strips == 1`,
otherwise `st.session_state.strips.pop(i)`. -/
def delete_strip (strips : List Strip) (i : ℕ) : List Strip :=
  if strips.length = 1 then strips else strips.eraseIdx i

/-- The strip appended by the count-adjustment loop (lines 414-418). -/
def defaultNewStrip : Strip := ⟨"Maple", 1, "#F5DEB3"⟩

/-- The strip-count adjustment (lines 413-420): `while len < num_strips:
append default Maple strip; while len > num_strips: pop()` (pop removes the
last element). -/
def adjust_strips (strips : List Strip) (n : ℕ) : List Strip :=
  if strips.length < n then
    strips ++ List.replicate (n - strips.length) defaultNewStrip
  else strips.take n

/-- A one-strip session state. -/
def stOneStrip : AppState :=
  ⟨[⟨"Maple", 2, "#F5DEB3"⟩], "cutting_board_design", 12, 18⟩

/-- A well-formed document whose `strips` key holds the empty array. -/
def docEmptyStrips : DesignDoc := ⟨none, none, none, some []⟩

/-- C7 counterexample: the load operation assigns the document's `strips`
value unchecked, so loading a document with `"strips": []` drops the
sequence length from 1 to 0 — the non-emptiness invariant is not preserved
by load. -/
theorem C7_counterexample :
    1 ≤ stOneStrip.strips.length ∧
    (load_design stOneStrip (some docEmptyStrips)).2 = LoadMsg.success ∧
    (load_design stOneStrip (some docEmptyStrips)).1.strips.length = 0 := by
  exact ⟨by simp [stOneStrip], rfl, rfl⟩

/-- C7 (amended): deletion is rejected when exactly one strip remains and
the strip-count adjustment (whose input is bounded below by 1) keeps the
sequence non-empty, so neither drops the length below 1; the load handler,
however, replaces the sequence with the document's `strips` value, which may
be empty. -/
theorem C7_nonempty_under_delete_adjust (strips : List Strip) (i n : ℕ)
    (hne : 1 ≤ strips.length) (hn : 1 ≤ n) :
    1 ≤ (delete_strip strips i).length ∧
    1 ≤ (adjust_strips strips n).length := by
  constructor
  · unfold delete_strip
    split
    · omega
    · rw [List.length_eraseIdx]
      split <;> omega
  · unfold adjust_strips
    split
    · rw [List.length_append, List.length_replicate]
      omega
    · rw [List.length_take]
      omega

/-- Witness for the amended C7 at the default design. -/
theorem C7_nonempty_witness :
    1 ≤ (delete_strip strips3 1).length ∧
    1 ≤ (adjust_strips strips3 5).length :=
  C7_nonempty_under_delete_adjust strips3 1 5 (by simp [strips3]) (by omega)

/-- The move-up button (lines 493-499): disabled for the first strip
(`i == 0`); otherwise `temp = strips[i-1]; strips[i-1] = strips[i];
strips[i] = temp`. -/
def move_up (strips : List Strip) (i : ℕ) : List Strip :=
  if i = 0 then strips
  else
    (strips.set (i - 1) (strips.getD i default)).set i
      (strips.getD (i - 1) default)

/-- The move-down button (lines 501-508): disabled for the last strip
(`i == num_strips - 1`); otherwise `temp = strips[i+1]; strips[i+1] =
strips[i]; strips[i] = temp`. -/
def move_down (strips : List Strip) (i : ℕ) : List Strip :=
  if i = strips.length - 1 then strips
  else
    (strips.set (i + 1) (strips.getD i default)).set i
      (strips.getD (i + 1) default)

theorem getD_set_same {l : List Strip} {m : ℕ} (hm : m < l.length)
    (a : Strip) : (l.set m a).getD m default = a := by
  rw [List.getD_eq_getElem?_getD, List.getElem?_set_self (by simpa using hm)]
  rfl

theorem getD_set_other {l : List Strip} {m j : ℕ} (h : m ≠ j) (a : Strip) :
    (l.set m a).getD j default = l.getD j default := by
  rw [List.getD_eq_getElem?_getD, List.getElem?_set_ne h,
    ← List.getD_eq_getElem?_getD]

/-- C8: reordering is an adjacent-pair swap — moving strip `i` up (for
`0 < i < length`) exchanges entries `i-1` and `i` and leaves every other
entry and the length unchanged; moving it down (for `i+1 < length`)
exchanges entries `i` and `i+1` likewise; moving the first strip up or the
last strip down leaves the sequence entirely unchanged. -/
theorem C8_move_swap (strips : List Strip) (i : ℕ) :
    move_up strips 0 = strips ∧
    move_down strips (strips.length - 1) = strips ∧
    (0 < i → i < strips.length →
      (move_up strips i).length = strips.length ∧
      (move_up strips i).getD (i - 1) default = strips.getD i default ∧
      (move_up strips i).getD i default = strips.getD (i - 1) default ∧
      (∀ j, j ≠ i - 1 → j ≠ i →
        (move_up strips i).getD j default = strips.getD j default)) ∧
    (i + 1 < strips.length →
      (move_down strips i).length = strips.length ∧
      (move_down strips i).getD i default = strips.getD (i + 1) default ∧
      (move_down strips i).getD (i + 1) default = strips.getD i default ∧
      (∀ j, j ≠ i → j ≠ i + 1 →
        (move_down strips i).getD j default = strips.getD j default)) := by
  refine ⟨by simp [move_up], by simp [move_down], ?_, ?_⟩
  · intro hi0 hilen
    have hne : i ≠ 0 := Nat.pos_iff_ne_zero.mp hi0
    have hi1 : i - 1 < strips.length := by omega
    unfold move_up
    rw [if_neg hne]
    refine ⟨by simp, ?_, ?_, ?_⟩
    · rw [getD_set_other (by omega), getD_set_same hi1]
    · exact getD_set_same (by simpa using hilen) _
    · intro j hj1 hj2
      rw [getD_set_other (fun h => hj2 h.symm),
        getD_set_other (fun h => hj1 h.symm)]
  · intro hilen
    have hne : i ≠ strips.length - 1 := by omega
    have hi1 : i + 1 < strips.length := hilen
    unfold move_down
    rw [if_neg hne]
    refine ⟨by simp, ?_, ?_, ?_⟩
    · exact getD_set_same (by simpa using Nat.lt_of_succ_lt hilen) _
    · rw [getD_set_other (by omega), getD_set_same hi1]
    · intro j hj1 hj2
      rw [getD_set_other (fun h => hj1 h.symm),
        getD_set_other (fun h => hj2 h.symm)]

/-- Witness for C8 at the default three-strip design: moving strip 1 up
swaps entries 0 and 1 and leaves entry 2 alone; moving the first strip up
and the last strip down are no-ops. -/
theorem C8_move_swap_witness :
    (move_up strips3 1).getD 0 default = strips3.getD 1 default ∧
    (move_up strips3 1).getD 1 default = strips3.getD 0 default ∧
    (move_up strips3 1).getD 2 default = strips3.getD 2 default ∧
    move_up strips3 0 = strips3 ∧
    move_down strips3 2 = strips3 := by
  have h := C8_move_swap strips3 1
  have hup := h.2.2.1 (by omega) (by simp [strips3])
  exact ⟨hup.2.1, hup.2.2.1, hup.2.2.2 2 (by omega) (by omega), h.1,
    (C8_move_swap strips3 2).2.1⟩

/-- C9: the unit conversions round-trip exactly over exact arithmetic —
`mm_to_inches (inches_to_mm x) = x` and `cm_to_inches (inches_to_cm x) = x`
for every positive `x` — so in particular the round-trip error is within
the `1e-9` tolerance and the canonically stored inch value is unaltered. -/
theorem C9_conversion_roundtrip (x : ℚ) (hx : 0 < x) :
    mm_to_inches (inches_to_mm x) = x ∧
    cm_to_inches (inches_to_cm x) = x ∧
    |mm_to_inches (inches_to_mm x) - x| ≤ 1 / 1000000000 ∧
    |cm_to_inches (inches_to_cm x) - x| ≤ 1 / 1000000000 := by
  have h1 : mm_to_inches (inches_to_mm x) = x := by
    unfold mm_to_inches inches_to_mm
    rw [mul_div_assoc]
    norm_num
  have h2 : cm_to_inches (inches_to_cm x) = x := by
    unfold cm_to_inches inches_to_cm
    rw [mul_div_assoc]
    norm_num
  refine ⟨h1, h2, ?_, ?_⟩
  · rw [h1]
    norm_num
  · rw [h2]
    norm_num

/-- Witness for C9 at `x = 3`. -/
theorem C9_conversion_roundtrip_witness :
    mm_to_inches (inches_to_mm 3) = 3 ∧
    cm_to_inches (inches_to_cm 3) = 3 := by
  have h := C9_conversion_roundtrip 3 (by norm_num)
  exact ⟨h.1, h.2.1⟩

/-- Bulk edit "Apply to All Strips" (lines 435-438): `for strip in strips:
strip['width'] = bulk_width`. -/
def apply_width_to_all (strips : List Strip) (bulk_width : ℚ) : List Strip :=
  strips.map (fun s => { s with width := bulk_width })

/-- Bulk edit "Apply Wood to All" (lines 445-449): `for strip in strips:
strip['wood_type'] = bulk_wood; strip['color'] = WOOD_TYPES[bulk_wood]`. -/
def apply_wood_to_all (strips : List Strip) (bulk_wood : String) : List Strip :=
  strips.map (fun s =>
    { s with wood_type := bulk_wood, color := woodColor bulk_wood })

/-- C10: each bulk-edit operation preserves the number and order of strips
and touches only its target fields — "Apply to All Strips" sets every width
to the chosen value, leaving wood type and color at strip `i` unchanged;
"Apply Wood to All" sets every wood type and its catalog color, leaving the
width at strip `i` unchanged. -/
theorem C10_bulk_edit_frame (strips : List Strip) (b : ℚ) (w : String)
    (i : ℕ) (hi : i < strips.length) :
    (apply_width_to_all strips b).length = strips.length ∧
    (apply_wood_to_all strips w).length = strips.length ∧
    (apply_width_to_all strips b).getD i default =
      { strips.getD i default with width := b } ∧
    (apply_wood_to_all strips w).getD i default =
      { strips.getD i default with
          wood_type := w, color := woodColor w } := by
  refine ⟨by simp [apply_width_to_all], by simp [apply_wood_to_all], ?_, ?_⟩
  · simp [apply_width_to_all, List.getD_eq_getElem?_getD, List.getElem?_map,
      List.getElem?_eq_getElem hi]
  · simp [apply_wood_to_all, List.getD_eq_getElem?_getD, List.getElem?_map,
      List.getElem?_eq_getElem hi]

/-- Witness for C10 at the default design, strip 1, width `1`, wood
Cherry. -/
theorem C10_bulk_edit_frame_witness :
    (apply_width_to_all strips3 1).getD 1 default =
      { strips3.getD 1 default with width := 1 } ∧
    (apply_wood_to_all strips3 "Cherry").getD 1 default =
      { strips3.getD 1 default with
          wood_type := "Cherry", color := woodColor "Cherry" } := by
  have h := C10_bulk_edit_frame strips3 1 "Cherry" 1 (by simp [strips3])
  exact ⟨h.2.2.1, h.2.2.2⟩
